import Mathlib

/-!
Shallow embedding of the Django-Portfolio ingestion-and-derivation pipeline
(src/portfolios/models.py, src/portfolios/services.py, src/portfolios/selectors.py,
src/portfolios/management/commands/load_portfolio_data.py).

Modelling conventions:
* Python `Decimal` values are modelled as exact rationals (ℚ); `Decimal`
  arithmetic on the magnitudes used here is exact, never binary floating point.
* `datetime.date` is a (year, month, day) triple ordered lexicographically,
  which is exactly Python's ordering on `date` objects.
* The database is a record of lists, one per table.  Django's
  `get_or_create` is first-match lookup followed by either an append (INSERT)
  or a first-match in-place update (`obj.save()` on the fetched row).
* `full_clean()` re-checks the model-level constraints (blank, range and
  positivity checks declared in models.py); the database additionally enforces
  the declared `CheckConstraint`s on every INSERT/UPDATE.  A `full_clean`
  failure is `DbError.validationError`; a constraint rejected by the database
  itself is `DbError.integrityError`.
* `@transaction.atomic` is modelled by the `Except` result: an error leaves
  the caller's store unchanged (`atomicResult`).
-/

set_option autoImplicit false

namespace PF

/-- Calendar date, ordered lexicographically like Python `datetime.date`. -/
structure PDate where
  year : Nat
  month : Nat
  day : Nat
deriving DecidableEq, Repr

/-- Python `date.__lt__`: lexicographic comparison on (year, month, day). -/
def PDate.ltb (a b : PDate) : Bool :=
  if a.year ≠ b.year then decide (a.year < b.year)
  else if a.month ≠ b.month then decide (a.month < b.month)
  else decide (a.day < b.day)

/-- models.Asset: unique `name`, optional `symbol`. -/
structure Asset where
  name : String
  symbol : Option String
deriving DecidableEq, Repr

/-- models.Portfolio: unique `name`, `initial_value` (V₀) and `initial_date`.
The fields are `Option`-valued so that the falsy/missing checks of
`portfolio_initial_quantities_calculate` can be expressed. -/
structure Portfolio where
  name : String
  initial_value : Option ℚ
  initial_date : Option PDate
deriving DecidableEq, Repr

/-- models.Price: price p_{i,t} of an asset on a date; (asset, date) unique,
CheckConstraint `price_positive`: price > 0. -/
structure Price where
  asset : String
  date : PDate
  price : ℚ
deriving DecidableEq, Repr

/-- models.PortfolioWeight: w_{i,0}; (portfolio, asset) unique,
CheckConstraint `weight_range_0_to_1`: 0 ≤ initial_weight ≤ 1. -/
structure PortfolioWeight where
  portfolio : String
  asset : String
  initial_weight : ℚ
deriving DecidableEq, Repr

/-- models.PortfolioHolding: quantity c_{i,t}; (portfolio, asset, date) unique,
CheckConstraint `quantity_non_negative`: quantity ≥ 0. -/
structure PortfolioHolding where
  portfolio : String
  asset : String
  date : PDate
  quantity : ℚ
deriving DecidableEq, Repr

/-- models.Transaction: declared but never populated by the core. -/
structure Txn where
  portfolio : String
  asset : String
  date : PDate
  ttype : String
  amount : ℚ
deriving DecidableEq, Repr

/-- The database: one list per table. -/
structure Store where
  assets : List Asset
  portfolios : List Portfolio
  prices : List Price
  weights : List PortfolioWeight
  holdings : List PortfolioHolding
  transactions : List Txn
deriving DecidableEq, Repr

def emptyStore : Store :=
  { assets := [], portfolios := [], prices := [], weights := [], holdings := [],
    transactions := [] }

/-- Error raised by a write: `full_clean()` raising Django `ValidationError`,
or the database rejecting a declared check constraint (`IntegrityError`). -/
inductive DbError where
  | validationError
  | integrityError
deriving DecidableEq, Repr

/-- `@transaction.atomic`: an error rolls back, leaving the store unchanged. -/
def atomicResult {ε α : Type} (s : Store) : Except ε (Store × α) → Store
  | .ok r => r.1
  | .error _ => s

/-- Error component of a write result, for stating which exception is raised. -/
def errorOf {ε α : Type} : Except ε α → Option ε
  | .ok _ => none
  | .error e => some e

/-- Update the first list entry satisfying `p` (Django `obj.save()` on the row
fetched by `get_or_create`). -/
def updateFirst {α : Type} (p : α → Bool) (f : α → α) : List α → List α
  | [] => []
  | x :: xs => if p x then f x :: xs else x :: updateFirst p f xs

/-- Python truthiness of an optional string (`if symbol:`). -/
def pyTruthyStr : Option String → Bool
  | none => false
  | some v => decide (v ≠ "")

/-- Python truthiness test `not portfolio.initial_value`: true for a missing
value and for a Decimal equal to zero. -/
def pyFalsyDec : Option ℚ → Bool
  | none => true
  | some v => decide (v = 0)

/-- Asset.full_clean(): `name` is a non-blank CharField. -/
def assetClean (a : Asset) : Bool :=
  decide (a.name ≠ "")

/-- Portfolio.full_clean(): `initial_value` and `initial_date` are required. -/
def portfolioClean (p : Portfolio) : Bool :=
  p.initial_value.isSome && p.initial_date.isSome

/-- Price constraint `price_positive` (checked by full_clean and by the DB). -/
def priceCheck (p : Price) : Bool :=
  decide (0 < p.price)

/-- Weight constraint `weight_range_0_to_1` (full_clean and DB). -/
def weightCheck (w : PortfolioWeight) : Bool :=
  decide (0 ≤ w.initial_weight ∧ w.initial_weight ≤ 1)

/-- Holding constraint `quantity_non_negative` (full_clean and DB). -/
def holdingCheck (h : PortfolioHolding) : Bool :=
  decide (0 ≤ h.quantity)

/-- services.asset_create (services.py:24-47).  `get_or_create` keyed on
`name`; when the asset already exists, the symbol is overwritten (with
`full_clean` re-validation) only under `if not created and symbol:`. -/
def asset_create (s : Store) (name : String) (symbol : Option String) :
    Except DbError (Store × Asset) :=
  match s.assets.find? (fun a => decide (a.name = name)) with
  | none =>
    let a : Asset := { name := name, symbol := symbol }
    .ok ({ s with assets := s.assets ++ [a] }, a)
  | some a =>
    if pyTruthyStr symbol then
      let a2 : Asset := { a with symbol := symbol }
      if assetClean a2 then
        .ok ({ s with
                assets := updateFirst (fun x => decide (x.name = name))
                  (fun x => { x with symbol := symbol }) s.assets }, a2)
      else .error .validationError
    else .ok (s, a)

/-- services.portfolio_create (services.py:50-79). -/
def portfolio_create (s : Store) (name : String) (initial_value : ℚ)
    (initial_date : PDate) : Except DbError (Store × Portfolio) :=
  match s.portfolios.find? (fun p => decide (p.name = name)) with
  | none =>
    let p : Portfolio :=
      { name := name, initial_value := some initial_value,
        initial_date := some initial_date }
    .ok ({ s with portfolios := s.portfolios ++ [p] }, p)
  | some p =>
    let p2 : Portfolio :=
      { p with initial_value := some initial_value,
               initial_date := some initial_date }
    if portfolioClean p2 then
      .ok ({ s with
              portfolios := updateFirst (fun x => decide (x.name = name))
                (fun x => { x with initial_value := some initial_value,
                                   initial_date := some initial_date })
                s.portfolios }, p2)
    else .error .validationError

/-- services.price_create (services.py:82-108).  On the create path
`get_or_create` INSERTs without calling `full_clean`; the database check
constraint `price_positive` is what rejects a non-positive price there.  On
the update path `full_clean` runs before `save`. -/
def price_create (s : Store) (asset : String) (date : PDate) (price : ℚ) :
    Except DbError (Store × Price) :=
  match s.prices.find? (fun x => decide (x.asset = asset ∧ x.date = date)) with
  | none =>
    let pr : Price := { asset := asset, date := date, price := price }
    if priceCheck pr then .ok ({ s with prices := s.prices ++ [pr] }, pr)
    else .error .integrityError
  | some pr =>
    let pr2 : Price := { pr with price := price }
    if priceCheck pr2 then
      .ok ({ s with
              prices := updateFirst
                (fun x => decide (x.asset = asset ∧ x.date = date))
                (fun x => { x with price := price }) s.prices }, pr2)
    else .error .validationError

/-- services.portfolio_weight_create (services.py:111-137). -/
def portfolio_weight_create (s : Store) (pname : String) (asset : String)
    (initial_weight : ℚ) : Except DbError (Store × PortfolioWeight) :=
  match s.weights.find?
      (fun x => decide (x.portfolio = pname ∧ x.asset = asset)) with
  | none =>
    let w : PortfolioWeight :=
      { portfolio := pname, asset := asset, initial_weight := initial_weight }
    if weightCheck w then .ok ({ s with weights := s.weights ++ [w] }, w)
    else .error .integrityError
  | some w =>
    let w2 : PortfolioWeight := { w with initial_weight := initial_weight }
    if weightCheck w2 then
      .ok ({ s with
              weights := updateFirst
                (fun x => decide (x.portfolio = pname ∧ x.asset = asset))
                (fun x => { x with initial_weight := initial_weight })
                s.weights }, w2)
    else .error .validationError

/-- services.portfolio_holding_create (services.py:140-169). -/
def portfolio_holding_create (s : Store) (pname : String) (asset : String)
    (date : PDate) (quantity : ℚ) : Except DbError (Store × PortfolioHolding) :=
  match s.holdings.find?
      (fun x => decide (x.portfolio = pname ∧ x.asset = asset ∧ x.date = date)) with
  | none =>
    let h : PortfolioHolding :=
      { portfolio := pname, asset := asset, date := date, quantity := quantity }
    if holdingCheck h then .ok ({ s with holdings := s.holdings ++ [h] }, h)
    else .error .integrityError
  | some h =>
    let h2 : PortfolioHolding := { h with quantity := quantity }
    if holdingCheck h2 then
      .ok ({ s with
              holdings := updateFirst
                (fun x => decide (x.portfolio = pname ∧ x.asset = asset ∧ x.date = date))
                (fun x => { x with quantity := quantity }) s.holdings }, h2)
    else .error .validationError

/-- selectors.price_get (selectors.py:41-58). -/
def price_get (s : Store) (asset : String) (date : PDate) : Option Price :=
  s.prices.find? (fun x => decide (x.asset = asset ∧ x.date = date))

/-- selectors.portfolio_weight_list (selectors.py:61-73). -/
def portfolio_weight_list (s : Store) (pname : String) : List PortfolioWeight :=
  s.weights.filter (fun x => decide (x.portfolio = pname))

/-- Diagnostic log lines emitted by the derivation engine. -/
inductive Warn where
  | noWeights
  | priceNotFound (asset : String)
  | invalidPrice (asset : String)
  | nonPositiveQuantity (asset : String)
  | calcError (asset : String)
deriving DecidableEq, Repr

/-- The fatal ValueErrors of portfolio_initial_quantities_calculate. -/
inductive CalcErr where
  | missingInitialValue
  | missingInitialDate
deriving DecidableEq, Repr

/-- The per-weight loop of portfolio_initial_quantities_calculate
(services.py:214-260): look up the T0 price, skip (warning) when it is
missing or non-positive, compute C = (w × V₀) / p, skip when C ≤ 0,
otherwise upsert the holding; a write exception is logged and skipped. -/
def calcLoop (pname : String) (V0 : ℚ) (d0 : PDate) :
    Store → List PortfolioWeight →
    Store × List (String × PortfolioHolding) × List Warn
  | s, [] => (s, [], [])
  | s, w :: ws =>
    match price_get s w.asset d0 with
    | none =>
      let r := calcLoop pname V0 d0 s ws
      (r.1, r.2.1, Warn.priceNotFound w.asset :: r.2.2)
    | some pr =>
      if pr.price ≤ 0 then
        let r := calcLoop pname V0 d0 s ws
        (r.1, r.2.1, Warn.invalidPrice w.asset :: r.2.2)
      else
        let q := w.initial_weight * V0 / pr.price
        if q ≤ 0 then
          let r := calcLoop pname V0 d0 s ws
          (r.1, r.2.1, Warn.nonPositiveQuantity w.asset :: r.2.2)
        else
          match portfolio_holding_create s pname w.asset d0 q with
          | .error _ =>
            let r := calcLoop pname V0 d0 s ws
            (r.1, r.2.1, Warn.calcError w.asset :: r.2.2)
          | .ok (s1, h) =>
            let r := calcLoop pname V0 d0 s1 ws
            (r.1, (w.asset, h) :: r.2.1, r.2.2)

/-- services.portfolio_initial_quantities_calculate (services.py:172-262).
Returns the final store, the asset-name → holding mapping, and the warnings. -/
def portfolio_initial_quantities_calculate (s : Store) (pf : Portfolio) :
    Except CalcErr (Store × List (String × PortfolioHolding) × List Warn) :=
  if pyFalsyDec pf.initial_value then .error .missingInitialValue
  else if pf.initial_date.isNone then .error .missingInitialDate
  else
    let V0 := pf.initial_value.getD 0
    let d0 := pf.initial_date.getD { year := 1, month := 1, day := 1 }
    let ws := portfolio_weight_list s pf.name
    if ws.isEmpty then .ok (s, [], [Warn.noWeights])
    else .ok (calcLoop pf.name V0 d0 s ws)

/-- Holdings mapping of a derivation result (empty when the call raised). -/
def calcHoldings
    (r : Except CalcErr (Store × List (String × PortfolioHolding) × List Warn)) :
    List (String × PortfolioHolding) :=
  match r with
  | .ok t => t.2.1
  | .error _ => []

/-- Warnings of a derivation result. -/
def calcWarns
    (r : Except CalcErr (Store × List (String × PortfolioHolding) × List Warn)) :
    List Warn :=
  match r with
  | .ok t => t.2.2
  | .error _ => []

/-- Fixed historical window of Command._load_prices (lines 352-353). -/
def min_date : PDate := { year := 2022, month := 2, day := 15 }

def max_date : PDate := { year := 2023, month := 2, day := 16 }

/-- Date guard of Command._load_prices line 360:
`if price_date < min_date or price_date > max_date: skip`. -/
def price_date_in_range (d : PDate) : Bool :=
  !(PDate.ltb d min_date || PDate.ltb max_date d)

/-- One (date, asset, price) cell of Command._load_prices (lines 351-394):
skip when the row date is out of the window, skip when the price is not
positive, otherwise persist through services.price_create.  The Bool reports
whether the price was persisted. -/
def load_price_cell (s : Store) (asset : String) (d : PDate) (p : ℚ) :
    Except DbError (Store × Bool) :=
  if PDate.ltb d min_date || PDate.ltb max_date d then .ok (s, false)
  else if p ≤ 0 then .ok (s, false)
  else
    match price_create s asset d p with
    | .ok r => .ok (r.1, true)
    | .error e => .error e

/-- Django ON-DELETE CASCADE for `Portfolio.objects.all().delete()`
(models.py: PortfolioWeight, PortfolioHolding, Transaction have
`on_delete=models.CASCADE` foreign keys to Portfolio). -/
def portfolios_delete_all (s : Store) : Store :=
  let pnames := s.portfolios.map Portfolio.name
  { s with
    portfolios := [],
    weights := s.weights.filter (fun w => decide (w.portfolio ∉ pnames)),
    holdings := s.holdings.filter (fun h => decide (h.portfolio ∉ pnames)),
    transactions := s.transactions.filter (fun t => decide (t.portfolio ∉ pnames)) }

/-- Django ON-DELETE CASCADE for `Asset.objects.all().delete()`. -/
def assets_delete_all (s : Store) : Store :=
  let anames := s.assets.map Asset.name
  { s with
    assets := [],
    prices := s.prices.filter (fun p => decide (p.asset ∉ anames)),
    weights := s.weights.filter (fun w => decide (w.asset ∉ anames)),
    holdings := s.holdings.filter (fun h => decide (h.asset ∉ anames)),
    transactions := s.transactions.filter (fun t => decide (t.asset ∉ anames)) }

/-- The `--clear` branch of Command.handle (load_portfolio_data.py:83-89):
exactly four explicit bulk deletes — Price, PortfolioWeight, Portfolio,
Asset, in that order — with the database applying ON-DELETE CASCADE on the
Portfolio and Asset deletions. -/
def clear_data (s : Store) : Store :=
  let s1 := { s with prices := [] }
  let s2 := { s1 with weights := [] }
  let s3 := portfolios_delete_all s2
  assets_delete_all s3

/-- The same four delete statements of Command.handle with no ON-DELETE
cascade behaviour: each delete removes only its own table's rows. -/
def clear_data_without_cascade (s : Store) : Store :=
  { s with prices := [], weights := [], portfolios := [], assets := [] }

/-- Modelled from the spec: "Bulk-clear ... deletes in dependency order:
Price, PortfolioWeight, PortfolioHolding, Transaction, then Portfolio, then
Asset — children before parents, ... without relying on ON-DELETE behavior":
six explicit per-table deletes, no cascade. -/
def clear_data_spec (s : Store) : Store :=
  { s with prices := [], weights := [], holdings := [], transactions := [],
           portfolios := [], assets := [] }

/-! Concrete example stores used by the witnesses and counterexamples. -/

/-- Initial date 15/02/22 shared by the examples. -/
def exDate : PDate := { year := 2022, month := 2, day := 15 }

/-- A portfolio with V₀ = 1,000,000,000.00 and initial date 15/02/22. -/
def exPortfolio : Portfolio :=
  { name := "Portfolio 1", initial_value := some 1000000000,
    initial_date := some exDate }

/-- Store for the round-trip example: weight 0.28 on asset EEUU, T0 price 100. -/
def exStoreRound : Store :=
  { emptyStore with
    assets := [{ name := "EEUU", symbol := none }],
    portfolios := [exPortfolio],
    prices := [{ asset := "EEUU", date := exDate, price := 100 }],
    weights := [{ portfolio := "Portfolio 1", asset := "EEUU",
                  initial_weight := (0.28 : ℚ) }] }

/-- Store with a zero weight on an asset with a valid T0 price. -/
def exStoreZeroWeight : Store :=
  { emptyStore with
    assets := [{ name := "EEUU", symbol := none }],
    portfolios := [exPortfolio],
    prices := [{ asset := "EEUU", date := exDate, price := 100 }],
    weights := [{ portfolio := "Portfolio 1", asset := "EEUU",
                  initial_weight := 0 }] }

/-- Store with a weight on an asset whose stored T0 price is 0. -/
def exStoreZeroPrice : Store :=
  { emptyStore with
    assets := [{ name := "EEUU", symbol := none }],
    portfolios := [exPortfolio],
    prices := [{ asset := "EEUU", date := exDate, price := 0 }],
    weights := [{ portfolio := "Portfolio 1", asset := "EEUU",
                  initial_weight := (0.28 : ℚ) }] }

/-- Store holding a PortfolioHolding and a Transaction, for the clear path. -/
def exStoreClear : Store :=
  { assets := [{ name := "EEUU", symbol := none }],
    portfolios := [exPortfolio],
    prices := [{ asset := "EEUU", date := exDate, price := 100 }],
    weights := [{ portfolio := "Portfolio 1", asset := "EEUU",
                  initial_weight := (0.28 : ℚ) }],
    holdings := [{ portfolio := "Portfolio 1", asset := "EEUU", date := exDate,
                   quantity := 2800000 }],
    transactions := [{ portfolio := "Portfolio 1", asset := "EEUU",
                       date := exDate, ttype := "BUY", amount := 100 }] }

/-- Store with an existing asset that already has a symbol. -/
def exStoreSymbol : Store :=
  { emptyStore with assets := [{ name := "EEUU", symbol := some "OLD" }] }

/-! Generic lemmas about the store primitives. -/

theorem updateFirst_length {α : Type} (p : α → Bool) (f : α → α) (l : List α) :
    (updateFirst p f l).length = l.length := by
  induction l with
  | nil => rfl
  | cons x xs ih =>
    simp only [updateFirst]
    split <;> simp [ih]

theorem mem_updateFirst {α : Type} {p : α → Bool} {f : α → α} {l : List α}
    {x : α} (hx : x ∈ updateFirst p f l) :
    x ∈ l ∨ ∃ y, y ∈ l ∧ p y = true ∧ x = f y := by
  induction l with
  | nil => simp [updateFirst] at hx
  | cons z zs ih =>
    rw [updateFirst] at hx
    by_cases hz : p z = true
    · rw [if_pos hz] at hx
      rcases List.mem_cons.mp hx with h1 | h1
      · exact Or.inr ⟨z, List.mem_cons_self z zs, hz, h1⟩
      · exact Or.inl (List.mem_cons_of_mem z h1)
    · rw [if_neg hz] at hx
      rcases List.mem_cons.mp hx with h1 | h1
      · exact Or.inl (h1 ▸ List.mem_cons_self z zs)
      · rcases ih h1 with h2 | ⟨y, hy, hpy, hxy⟩
        · exact Or.inl (List.mem_cons_of_mem z h2)
        · exact Or.inr ⟨y, List.mem_cons_of_mem z hy, hpy, hxy⟩

theorem updateFirst_self {α : Type} {p : α → Bool} {f : α → α} {l : List α}
    (h : ∀ y ∈ l, p y = true → f y = y) : updateFirst p f l = l := by
  induction l with
  | nil => rfl
  | cons z zs ih =>
    rw [updateFirst]
    by_cases hz : p z = true
    · rw [if_pos hz, h z (List.mem_cons_self z zs) hz]
    · rw [if_neg hz, ih (fun y hy hpy => h y (List.mem_cons_of_mem z hy) hpy)]

theorem find?_updateFirst {α : Type} {p : α → Bool} {f : α → α}
    (hpf : ∀ x, p (f x) = p x) (l : List α) :
    (updateFirst p f l).find? p = (l.find? p).map f := by
  induction l with
  | nil => rfl
  | cons z zs ih =>
    simp only [updateFirst]
    by_cases hz : p z = true
    · simp [List.find?_cons, hz, hpf]
    · simp only [hz, if_false]
      simp only [List.find?_cons, hz]
      simpa [hz] using ih

theorem updateFirst_updateFirst {α : Type} {p : α → Bool} {f : α → α}
    (hpf : ∀ x, p (f x) = p x) (hff : ∀ x, f (f x) = f x) (l : List α) :
    updateFirst p f (updateFirst p f l) = updateFirst p f l := by
  induction l with
  | nil => rfl
  | cons z zs ih =>
    simp only [updateFirst]
    by_cases hz : p z = true
    · simp [hz, updateFirst, hpf, hff]
    · simp [hz, updateFirst, ih]

theorem updateFirst_append_singleton {α : Type} {p : α → Bool} {f : α → α}
    {l : List α} (h : ∀ y ∈ l, p y = false) (a : α) (ha : p a = true) :
    updateFirst p f (l ++ [a]) = l ++ [f a] := by
  induction l with
  | nil => simp [updateFirst, ha]
  | cons z zs ih =>
    have hz : ¬ p z = true := by simp [h z (List.mem_cons_self z zs)]
    rw [List.cons_append, updateFirst, if_neg hz,
      ih (fun y hy => h y (List.mem_cons_of_mem z hy)), List.cons_append]

theorem find?_append_singleton {α : Type} {p : α → Bool} {l : List α}
    (h : ∀ y ∈ l, p y = false) (a : α) (ha : p a = true) :
    (l ++ [a]).find? p = some a := by
  induction l with
  | nil => simp [List.find?_cons, ha]
  | cons z zs ih =>
    have hz : p z = false := h z (List.mem_cons_self z zs)
    rw [List.cons_append, List.find?_cons, hz]
    exact ih (fun y hy => h y (List.mem_cons_of_mem z hy))

theorem filter_updateFirst_disjoint {α : Type} {p g : α → Bool} {f : α → α}
    (h : ∀ x, p x = true → (g x = false ∧ g (f x) = false)) (l : List α) :
    (updateFirst p f l).filter g = l.filter g := by
  induction l with
  | nil => rfl
  | cons z zs ih =>
    rw [updateFirst]
    by_cases hz : p z = true
    · rcases h z hz with ⟨h1, h2⟩
      rw [if_pos hz]
      simp [List.filter_cons, h1, h2]
    · rw [if_neg hz]
      by_cases hg : g z = true <;> simp [List.filter_cons, hg, ih]

/-! Lemmas about the holding upsert, feeding the derivation-engine proofs. -/

theorem holding_create_ok_spec {s : Store} {pname aname : String}
    {d : PDate} {q : ℚ} {s1 : Store} {h : PortfolioHolding}
    (hc : portfolio_holding_create s pname aname d q = .ok (s1, h)) :
    s1.prices = s.prices ∧ s1.weights = s.weights ∧
    h.quantity = q ∧ h.asset = aname ∧ h.portfolio = pname ∧ h.date = d ∧
    (∀ x ∈ s1.holdings, x ∈ s.holdings ∨ x.quantity = q) := by
  unfold portfolio_holding_create at hc
  split at hc
  · dsimp only at hc
    split at hc
    · simp only [Except.ok.injEq, Prod.mk.injEq] at hc
      obtain ⟨hs, hh⟩ := hc
      subst hs; subst hh
      refine ⟨rfl, rfl, rfl, rfl, rfl, rfl, ?_⟩
      intro x hx
      rcases List.mem_append.mp hx with h1 | h1
      · exact Or.inl h1
      · simp only [List.mem_singleton] at h1
        exact Or.inr (h1 ▸ rfl)
    · cases hc
  · rename_i hOld hfind
    dsimp only at hc
    split at hc
    · simp only [Except.ok.injEq, Prod.mk.injEq] at hc
      obtain ⟨hs, hh⟩ := hc
      subst hs; subst hh
      have hkeyb := List.find?_some hfind
      simp only [decide_eq_true_eq] at hkeyb
      refine ⟨rfl, rfl, rfl, hkeyb.2.1, hkeyb.1, hkeyb.2.2, ?_⟩
      intro x hx
      rcases mem_updateFirst hx with h1 | ⟨y, _, _, hxy⟩
      · exact Or.inl h1
      · exact Or.inr (hxy ▸ rfl)
    · cases hc

theorem holding_create_filter_asset {s : Store} {pname aname bname : String}
    {d : PDate} {q : ℚ} {s1 : Store} {h : PortfolioHolding}
    (hc : portfolio_holding_create s pname bname d q = .ok (s1, h))
    (hne : aname ≠ bname) :
    s1.holdings.filter (fun x => decide (x.asset = aname)) =
      s.holdings.filter (fun x => decide (x.asset = aname)) := by
  unfold portfolio_holding_create at hc
  split at hc
  · dsimp only at hc
    split at hc
    · simp only [Except.ok.injEq, Prod.mk.injEq] at hc
      obtain ⟨hs, _⟩ := hc
      subst hs
      simp only
      rw [List.filter_append]
      have hne2 : ¬ bname = aname := fun h2 => hne h2.symm
      have hd : (decide (bname = aname)) = false := decide_eq_false hne2
      simp [List.filter_cons, hd]
    · cases hc
  · dsimp only at hc
    split at hc
    · simp only [Except.ok.injEq, Prod.mk.injEq] at hc
      obtain ⟨hs, _⟩ := hc
      subst hs
      simp only
      refine filter_updateFirst_disjoint (fun x hx => ?_) s.holdings
      have hkey : x.portfolio = pname ∧ x.asset = bname ∧ x.date = d := by
        simpa using hx
      have hne2 : ¬ bname = aname := fun h2 => hne h2.symm
      constructor
      · simp [hkey.2.1, hne2]
      · simp [hkey.2.1, hne2]
    · cases hc

theorem price_get_eq_of_prices {s1 s2 : Store} (hp : s1.prices = s2.prices)
    (a : String) (d : PDate) : price_get s1 a d = price_get s2 a d := by
  unfold price_get
  rw [hp]

/-! Invariants of the derivation loop. -/

theorem calcLoop_prices (pname : String) (V0 : ℚ) (d0 : PDate)
    (ws : List PortfolioWeight) : ∀ (s : Store),
    (calcLoop pname V0 d0 s ws).1.prices = s.prices ∧
    (calcLoop pname V0 d0 s ws).1.weights = s.weights := by
  induction ws with
  | nil => intro s; exact ⟨rfl, rfl⟩
  | cons w ws ih =>
    intro s
    rw [calcLoop]
    cases hpg : price_get s w.asset d0 with
    | none => exact ih s
    | some pr =>
      dsimp only
      by_cases hle : pr.price ≤ 0
      · rw [if_pos hle]; exact ih s
      · rw [if_neg hle]
        by_cases hq : w.initial_weight * V0 / pr.price ≤ 0
        · rw [if_pos hq]; exact ih s
        · rw [if_neg hq]
          cases hhc : portfolio_holding_create s pname w.asset d0
              (w.initial_weight * V0 / pr.price) with
          | error e => exact ih s
          | ok r =>
            obtain ⟨s1, h⟩ := r
            dsimp only
            obtain ⟨hp, hw, -⟩ := holding_create_ok_spec hhc
            obtain ⟨ihp, ihw⟩ := ih s1
            exact ⟨ihp.trans hp, ihw.trans hw⟩

theorem calcLoop_holdings_formula (pname : String) (V0 : ℚ) (d0 : PDate)
    (ws : List PortfolioWeight) : ∀ (s : Store) (a : String) (h : PortfolioHolding),
    (a, h) ∈ (calcLoop pname V0 d0 s ws).2.1 →
    ∃ w, w ∈ ws ∧ w.asset = a ∧ ∃ pr, price_get s a d0 = some pr ∧
      0 < pr.price ∧ h.quantity = w.initial_weight * V0 / pr.price := by
  induction ws with
  | nil => intro s a h hmem; simp [calcLoop] at hmem
  | cons w ws ih =>
    intro s a h hmem
    rw [calcLoop] at hmem
    cases hpg : price_get s w.asset d0 with
    | none =>
      rw [hpg] at hmem
      dsimp only at hmem
      obtain ⟨w2, hw2, rest⟩ := ih s a h hmem
      exact ⟨w2, List.mem_cons_of_mem w hw2, rest⟩
    | some pr =>
      rw [hpg] at hmem
      dsimp only at hmem
      by_cases hle : pr.price ≤ 0
      · rw [if_pos hle] at hmem
        obtain ⟨w2, hw2, rest⟩ := ih s a h hmem
        exact ⟨w2, List.mem_cons_of_mem w hw2, rest⟩
      · rw [if_neg hle] at hmem
        by_cases hq : w.initial_weight * V0 / pr.price ≤ 0
        · rw [if_pos hq] at hmem
          obtain ⟨w2, hw2, rest⟩ := ih s a h hmem
          exact ⟨w2, List.mem_cons_of_mem w hw2, rest⟩
        · rw [if_neg hq] at hmem
          cases hhc : portfolio_holding_create s pname w.asset d0
              (w.initial_weight * V0 / pr.price) with
          | error e =>
            rw [hhc] at hmem
            dsimp only at hmem
            obtain ⟨w2, hw2, rest⟩ := ih s a h hmem
            exact ⟨w2, List.mem_cons_of_mem w hw2, rest⟩
          | ok r =>
            obtain ⟨s1, h1⟩ := r
            rw [hhc] at hmem
            dsimp only at hmem
            obtain ⟨hp, -, hqty, -, -, -, -⟩ := holding_create_ok_spec hhc
            rcases List.mem_cons.mp hmem with h2 | h2
            · obtain ⟨ha, hh⟩ := Prod.mk.injEq .. ▸ h2
              refine ⟨w, List.mem_cons_self w ws, ha.symm, pr, ?_, ?_, ?_⟩
              · rw [ha]; exact hpg
              · exact lt_of_not_le hle
              · rw [← hh] at hqty; exact hqty
            · obtain ⟨w2, hw2, hwa, pr2, hpg2, hpos2, hqty2⟩ := ih s1 a h h2
              refine ⟨w2, List.mem_cons_of_mem w hw2, hwa, pr2, ?_, hpos2, hqty2⟩
              rw [← price_get_eq_of_prices hp]
              exact hpg2

theorem calcLoop_quantities_positive (pname : String) (V0 : ℚ) (d0 : PDate)
    (ws : List PortfolioWeight) : ∀ (s : Store),
    (∀ x ∈ (calcLoop pname V0 d0 s ws).1.holdings,
        x ∈ s.holdings ∨ 0 < x.quantity) ∧
    (∀ a h, (a, h) ∈ (calcLoop pname V0 d0 s ws).2.1 → 0 < h.quantity) := by
  induction ws with
  | nil =>
    intro s
    exact ⟨fun x hx => Or.inl hx, fun a h hm => by simp [calcLoop] at hm⟩
  | cons w ws ih =>
    intro s
    rw [calcLoop]
    cases hpg : price_get s w.asset d0 with
    | none => exact ih s
    | some pr =>
      dsimp only
      by_cases hle : pr.price ≤ 0
      · rw [if_pos hle]; exact ih s
      · rw [if_neg hle]
        by_cases hq : w.initial_weight * V0 / pr.price ≤ 0
        · rw [if_pos hq]; exact ih s
        · rw [if_neg hq]
          cases hhc : portfolio_holding_create s pname w.asset d0
              (w.initial_weight * V0 / pr.price) with
          | error e => exact ih s
          | ok r =>
            obtain ⟨s1, h1⟩ := r
            dsimp only
            obtain ⟨-, -, hqty, -, -, -, hmem1⟩ := holding_create_ok_spec hhc
            have hqpos : 0 < w.initial_weight * V0 / pr.price := lt_of_not_le hq
            constructor
            · intro x hx
              rcases (ih s1).1 x hx with h2 | h2
              · rcases hmem1 x h2 with h3 | h3
                · exact Or.inl h3
                · exact Or.inr (h3 ▸ hqpos)
              · exact Or.inr h2
            · intro a h hm
              rcases List.mem_cons.mp hm with h2 | h2
              · obtain ⟨-, hh⟩ := Prod.mk.injEq .. ▸ h2
                rw [← hh] at hqty
                exact hqty ▸ hqpos
              · exact (ih s1).2 a h h2

theorem calcLoop_bad_price_skips (pname : String) (V0 : ℚ) (d0 : PDate)
    (ws : List PortfolioWeight) : ∀ (s : Store) (a : String) (pr : Price),
    price_get s a d0 = some pr → pr.price ≤ 0 →
    (∀ h, (a, h) ∉ (calcLoop pname V0 d0 s ws).2.1) ∧
    ((∃ w ∈ ws, w.asset = a) →
      Warn.invalidPrice a ∈ (calcLoop pname V0 d0 s ws).2.2) ∧
    (calcLoop pname V0 d0 s ws).1.holdings.filter (fun x => decide (x.asset = a)) =
      s.holdings.filter (fun x => decide (x.asset = a)) := by
  induction ws with
  | nil =>
    intro s a pr _ _
    refine ⟨fun h hm => by simp [calcLoop] at hm, ?_, rfl⟩
    rintro ⟨w, hw, -⟩
    simp at hw
  | cons w ws ih =>
    intro s a pr hpg hle
    by_cases hwa : w.asset = a
    · rw [calcLoop, hwa, hpg]
      dsimp only
      rw [if_pos hle]
      dsimp only
      obtain ⟨ih1, ih2, ih3⟩ := ih s a pr hpg hle
      exact ⟨ih1, fun _ => List.mem_cons_self _ _, ih3⟩
    · rw [calcLoop]
      have tailCase :
          (∀ h, (a, h) ∉ (calcLoop pname V0 d0 s ws).2.1) ∧
          ((∃ w2 ∈ w :: ws, w2.asset = a) →
            Warn.invalidPrice a ∈ (calcLoop pname V0 d0 s ws).2.2) ∧
          (calcLoop pname V0 d0 s ws).1.holdings.filter
              (fun x => decide (x.asset = a)) =
            s.holdings.filter (fun x => decide (x.asset = a)) := by
        obtain ⟨ih1, ih2, ih3⟩ := ih s a pr hpg hle
        refine ⟨ih1, ?_, ih3⟩
        rintro ⟨w2, hw2, hwa2⟩
        rcases List.mem_cons.mp hw2 with h2 | h2
        · exact absurd (h2 ▸ hwa2) hwa
        · exact ih2 ⟨w2, h2, hwa2⟩
      cases hpg2 : price_get s w.asset d0 with
      | none =>
        dsimp only
        exact ⟨tailCase.1, fun he => List.mem_cons_of_mem _ (tailCase.2.1 he),
          tailCase.2.2⟩
      | some pr2 =>
        dsimp only
        by_cases hle2 : pr2.price ≤ 0
        · rw [if_pos hle2]
          dsimp only
          exact ⟨tailCase.1, fun he => List.mem_cons_of_mem _ (tailCase.2.1 he),
            tailCase.2.2⟩
        · rw [if_neg hle2]
          by_cases hq : w.initial_weight * V0 / pr2.price ≤ 0
          · rw [if_pos hq]
            dsimp only
            exact ⟨tailCase.1, fun he => List.mem_cons_of_mem _ (tailCase.2.1 he),
              tailCase.2.2⟩
          · rw [if_neg hq]
            cases hhc : portfolio_holding_create s pname w.asset d0
                (w.initial_weight * V0 / pr2.price) with
            | error e =>
              dsimp only
              exact ⟨tailCase.1, fun he => List.mem_cons_of_mem _ (tailCase.2.1 he),
                tailCase.2.2⟩
            | ok r =>
              obtain ⟨s1, h1⟩ := r
              dsimp only
              obtain ⟨hp, -, -, -, -, -, -⟩ := holding_create_ok_spec hhc
              have hpg1 : price_get s1 a d0 = some pr := by
                rw [price_get_eq_of_prices hp]
                exact hpg
              obtain ⟨ih1, ih2, ih3⟩ := ih s1 a pr hpg1 hle
              refine ⟨?_, ?_, ?_⟩
              · intro h hm
                rcases List.mem_cons.mp hm with h2 | h2
                · exact hwa ((congrArg Prod.fst h2).symm)
                · exact ih1 h h2
              · rintro ⟨w2, hw2, hwa2⟩
                rcases List.mem_cons.mp hw2 with h2 | h2
                · exact absurd (h2 ▸ hwa2) hwa
                · exact ih2 ⟨w2, h2, hwa2⟩
              · rw [ih3]
                exact holding_create_filter_asset hhc (fun he => hwa he.symm)

theorem piq_ok_cases {s : Store} {pf : Portfolio} {V0 : ℚ} {d0 : PDate}
    {s' : Store} {hs : List (String × PortfolioHolding)} {warns : List Warn}
    (hv : pf.initial_value = some V0) (hd : pf.initial_date = some d0)
    (hres : portfolio_initial_quantities_calculate s pf = .ok (s', hs, warns)) :
    (portfolio_weight_list s pf.name = [] ∧ s' = s ∧ hs = [] ∧
      warns = [Warn.noWeights]) ∨
    calcLoop pf.name V0 d0 s (portfolio_weight_list s pf.name) =
      (s', hs, warns) := by
  unfold portfolio_initial_quantities_calculate at hres
  rw [hv, hd] at hres
  by_cases hz : V0 = 0
  · exfalso
    simp [pyFalsyDec, hz] at hres
  · rw [if_neg (by simp [pyFalsyDec, hz]), if_neg (by simp)] at hres
    dsimp only [Option.getD] at hres
    by_cases hemp : (portfolio_weight_list s pf.name).isEmpty = true
    · rw [if_pos hemp] at hres
      simp only [Except.ok.injEq, Prod.mk.injEq] at hres
      obtain ⟨h1, h2, h3⟩ := hres
      exact Or.inl ⟨List.isEmpty_iff.mp hemp, h1.symm, h2.symm, h3.symm⟩
    · rw [if_neg hemp] at hres
      simp only [Except.ok.injEq] at hres
      exact Or.inr hres

set_option maxRecDepth 8000

/-! The claim theorems for the derivation engine. -/

/-- Claim C1: every holding persisted by the derivation engine for a weight
row with weight w, portfolio value V₀ and a positive stored price p on the
initial date has quantity exactly (w × V₀) / p in exact decimal arithmetic;
in particular w = 0.28, V₀ = 1,000,000,000.00, p = 100.00 yields exactly
2,800,000. -/
theorem claim_C1_quantity_exact_formula :
    (∀ (s : Store) (pf : Portfolio) (V0 : ℚ) (d0 : PDate) (s' : Store)
        (hs : List (String × PortfolioHolding)) (warns : List Warn)
        (a : String) (h : PortfolioHolding),
      pf.initial_value = some V0 → pf.initial_date = some d0 →
      portfolio_initial_quantities_calculate s pf = .ok (s', hs, warns) →
      (a, h) ∈ hs →
      ∃ w, w ∈ s.weights ∧ w.portfolio = pf.name ∧ w.asset = a ∧
        ∃ pr, price_get s a d0 = some pr ∧ 0 < pr.price ∧
          h.quantity = w.initial_weight * V0 / pr.price) ∧
    calcHoldings (portfolio_initial_quantities_calculate exStoreRound exPortfolio) =
      [("EEUU", { portfolio := "Portfolio 1", asset := "EEUU", date := exDate,
                  quantity := 2800000 })] := by
  constructor
  · intro s pf V0 d0 s' hs warns a h hv hd hres hmem
    rcases piq_ok_cases hv hd hres with ⟨-, -, hnil, -⟩ | hcal
    · rw [hnil] at hmem
      cases hmem
    · have h21 : hs =
          (calcLoop pf.name V0 d0 s (portfolio_weight_list s pf.name)).2.1 := by
        rw [hcal]
      rw [h21] at hmem
      obtain ⟨w, hw, hwa, pr, hpg, hpos, hqty⟩ :=
        calcLoop_holdings_formula pf.name V0 d0 _ s a h hmem
      have hwmem := List.mem_filter.mp hw
      exact ⟨w, hwmem.1, by simpa using hwmem.2, hwa, pr, hpg, hpos, hqty⟩
  · with_unfolding_all rfl

/-- Witness for C1 at the concrete round-trip store. -/
theorem claim_C1_quantity_exact_formula_witness :
    ∃ w, w ∈ exStoreRound.weights ∧ w.portfolio = exPortfolio.name ∧
      w.asset = "EEUU" ∧
      ∃ pr, price_get exStoreRound "EEUU" exDate = some pr ∧ 0 < pr.price ∧
        ({ portfolio := "Portfolio 1", asset := "EEUU", date := exDate,
           quantity := 2800000 } : PortfolioHolding).quantity =
          w.initial_weight * 1000000000 / pr.price :=
  claim_C1_quantity_exact_formula.1 exStoreRound exPortfolio 1000000000 exDate
    { exStoreRound with
      holdings := [{ portfolio := "Portfolio 1", asset := "EEUU", date := exDate,
                     quantity := 2800000 }] }
    [("EEUU", { portfolio := "Portfolio 1", asset := "EEUU", date := exDate,
                quantity := 2800000 })]
    [] "EEUU"
    { portfolio := "Portfolio 1", asset := "EEUU", date := exDate,
      quantity := 2800000 }
    rfl rfl (by with_unfolding_all rfl) (List.mem_singleton.mpr rfl)

/-- Claim C6: a stored non-positive price for (asset, initial_date) makes the
derivation skip that asset with an invalidPrice warning, write no holding for
it, and the engine still returns normally. -/
theorem claim_C6_division_guard :
    (∀ (s : Store) (pf : Portfolio) (V0 : ℚ) (d0 : PDate) (s' : Store)
        (hs : List (String × PortfolioHolding)) (warns : List Warn)
        (a : String) (pr : Price) (w : PortfolioWeight),
      pf.initial_value = some V0 → pf.initial_date = some d0 →
      portfolio_initial_quantities_calculate s pf = .ok (s', hs, warns) →
      price_get s a d0 = some pr → pr.price ≤ 0 →
      w ∈ s.weights → w.portfolio = pf.name → w.asset = a →
      (∀ h, (a, h) ∉ hs) ∧ Warn.invalidPrice a ∈ warns ∧
      s'.holdings.filter (fun x => decide (x.asset = a)) =
        s.holdings.filter (fun x => decide (x.asset = a))) ∧
    (∀ (s : Store) (pf : Portfolio) (V0 : ℚ) (d0 : PDate),
      pf.initial_value = some V0 → V0 ≠ 0 → pf.initial_date = some d0 →
      ∃ t, portfolio_initial_quantities_calculate s pf = .ok t) := by
  constructor
  · intro s pf V0 d0 s' hs warns a pr w hv hd hres hpg hle hw hwp hwa
    have hwf : w ∈ portfolio_weight_list s pf.name :=
      List.mem_filter.mpr ⟨hw, by simp [hwp]⟩
    rcases piq_ok_cases hv hd hres with ⟨hws, -, -, -⟩ | hcal
    · rw [hws] at hwf
      cases hwf
    · obtain ⟨g1, g2, g3⟩ :=
        calcLoop_bad_price_skips pf.name V0 d0 (portfolio_weight_list s pf.name)
          s a pr hpg hle
      refine ⟨?_, ?_, ?_⟩
      · have h21 : hs =
            (calcLoop pf.name V0 d0 s (portfolio_weight_list s pf.name)).2.1 := by
          rw [hcal]
        rw [h21]
        exact g1
      · have h22 : warns =
            (calcLoop pf.name V0 d0 s (portfolio_weight_list s pf.name)).2.2 := by
          rw [hcal]
        rw [h22]
        exact g2 ⟨w, hwf, hwa⟩
      · have h1 : s' =
            (calcLoop pf.name V0 d0 s (portfolio_weight_list s pf.name)).1 := by
          rw [hcal]
        rw [h1]
        exact g3
  · intro s pf V0 d0 hv hz hd
    unfold portfolio_initial_quantities_calculate
    rw [hv, hd, if_neg (by simp [pyFalsyDec, hz]), if_neg (by simp)]
    dsimp only [Option.getD]
    by_cases hemp : (portfolio_weight_list s pf.name).isEmpty = true
    · rw [if_pos hemp]
      exact ⟨_, rfl⟩
    · rw [if_neg hemp]
      exact ⟨_, rfl⟩

/-- Witness for C6 at the zero-price store. -/
theorem claim_C6_division_guard_witness :
    (∀ h, ("EEUU", h) ∉ ([] : List (String × PortfolioHolding))) ∧
    Warn.invalidPrice "EEUU" ∈ [Warn.invalidPrice "EEUU"] ∧
    exStoreZeroPrice.holdings.filter (fun x => decide (x.asset = "EEUU")) =
      exStoreZeroPrice.holdings.filter (fun x => decide (x.asset = "EEUU")) :=
  claim_C6_division_guard.1 exStoreZeroPrice exPortfolio 1000000000 exDate
    exStoreZeroPrice [] [Warn.invalidPrice "EEUU"] "EEUU"
    { asset := "EEUU", date := exDate, price := 0 }
    { portfolio := "Portfolio 1", asset := "EEUU", initial_weight := (0.28 : ℚ) }
    rfl rfl (by with_unfolding_all rfl) (by with_unfolding_all rfl) (by decide)
    (List.mem_singleton.mpr rfl) rfl rfl

/-- Counterexample to C7 as stated: a portfolio whose initial_value is the
non-null Decimal 0 with zero weight rows raises ValueError instead of
returning the empty mapping. -/
theorem claim_C7_counterexample :
    ({ name := "Portfolio 1", initial_value := some 0,
       initial_date := some exDate } : Portfolio).initial_value ≠ none ∧
    ({ name := "Portfolio 1", initial_value := some 0,
       initial_date := some exDate } : Portfolio).initial_date ≠ none ∧
    portfolio_weight_list emptyStore "Portfolio 1" = [] ∧
    errorOf (portfolio_initial_quantities_calculate emptyStore
      { name := "Portfolio 1", initial_value := some 0,
        initial_date := some exDate }) = some CalcErr.missingInitialValue := by
  refine ⟨by simp, by simp, rfl, rfl⟩

/-- Claim C7 (amended: the present initial_value must also be non-zero, as a
zero Decimal is falsy and raises): with truthy initial_value and initial_date
and zero weight rows, the engine returns the unchanged store, an empty
mapping and a noWeights warning, without raising. -/
theorem claim_C7_no_weights :
    ∀ (s : Store) (pf : Portfolio) (V0 : ℚ) (d0 : PDate),
    pf.initial_value = some V0 → V0 ≠ 0 → pf.initial_date = some d0 →
    portfolio_weight_list s pf.name = [] →
    portfolio_initial_quantities_calculate s pf =
      .ok (s, [], [Warn.noWeights]) := by
  intro s pf V0 d0 hv hz hd hws
  unfold portfolio_initial_quantities_calculate
  rw [hv, hd, if_neg (by simp [pyFalsyDec, hz]), if_neg (by simp)]
  dsimp only [Option.getD]
  rw [hws]
  rfl

/-- Witness for C7 at the empty store. -/
theorem claim_C7_no_weights_witness :
    portfolio_initial_quantities_calculate emptyStore exPortfolio =
      .ok (emptyStore, [], [Warn.noWeights]) :=
  claim_C7_no_weights emptyStore exPortfolio 1000000000 exDate rfl
    (by decide) rfl rfl

/-- Claim C9: a falsy initial_value — missing, or the present Decimal 0 —
makes the engine raise ValueError before consulting any weights or prices
(the result does not depend on the store at all). -/
theorem claim_C9_falsy_initial_value :
    (∀ (s : Store) (pf : Portfolio), pf.initial_value = none →
      portfolio_initial_quantities_calculate s pf =
        .error CalcErr.missingInitialValue) ∧
    (∀ (s : Store) (pf : Portfolio), pf.initial_value = some 0 →
      portfolio_initial_quantities_calculate s pf =
        .error CalcErr.missingInitialValue) := by
  constructor <;>
    · intro s pf hv
      unfold portfolio_initial_quantities_calculate
      rw [hv]
      rfl

/-- Witness for C9: a portfolio whose initial_value is exactly 0. -/
theorem claim_C9_falsy_initial_value_witness :
    portfolio_initial_quantities_calculate emptyStore
      { name := "Portfolio 1", initial_value := some 0,
        initial_date := some exDate } = .error CalcErr.missingInitialValue :=
  claim_C9_falsy_initial_value.2 emptyStore
    { name := "Portfolio 1", initial_value := some 0,
      initial_date := some exDate } rfl

/-- Claim C10: every holding written by the derivation engine has strictly
positive quantity; a weight of exactly 0 yields computed quantity 0, which is
skipped with a warning and produces no holding row. -/
theorem claim_C10_positive_quantities :
    (∀ (s : Store) (pf : Portfolio) (V0 : ℚ) (d0 : PDate) (s' : Store)
        (hs : List (String × PortfolioHolding)) (warns : List Warn),
      pf.initial_value = some V0 → pf.initial_date = some d0 →
      portfolio_initial_quantities_calculate s pf = .ok (s', hs, warns) →
      (∀ x ∈ s'.holdings, x ∈ s.holdings ∨ 0 < x.quantity) ∧
      (∀ a h, (a, h) ∈ hs → 0 < h.quantity)) ∧
    calcHoldings (portfolio_initial_quantities_calculate exStoreZeroWeight
      exPortfolio) = [] ∧
    calcWarns (portfolio_initial_quantities_calculate exStoreZeroWeight
      exPortfolio) = [Warn.nonPositiveQuantity "EEUU"] ∧
    atomicResult exStoreZeroWeight (portfolio_initial_quantities_calculate
      exStoreZeroWeight exPortfolio) = exStoreZeroWeight := by
  refine ⟨?_, by with_unfolding_all rfl, by with_unfolding_all rfl,
    by with_unfolding_all rfl⟩
  intro s pf V0 d0 s' hs warns hv hd hres
  rcases piq_ok_cases hv hd hres with ⟨-, hseq, hnil, -⟩ | hcal
  · subst hseq
    refine ⟨fun x hx => Or.inl hx, ?_⟩
    rw [hnil]
    intro a h hm
    cases hm
  · obtain ⟨g1, g2⟩ :=
      calcLoop_quantities_positive pf.name V0 d0
        (portfolio_weight_list s pf.name) s
    constructor
    · have h1 : s' =
          (calcLoop pf.name V0 d0 s (portfolio_weight_list s pf.name)).1 := by
        rw [hcal]
      rw [h1]
      exact g1
    · have h21 : hs =
          (calcLoop pf.name V0 d0 s (portfolio_weight_list s pf.name)).2.1 := by
        rw [hcal]
      rw [h21]
      exact g2

/-- Witness for C10 at the round-trip store. -/
theorem claim_C10_positive_quantities_witness :
    (∀ x ∈ ({ exStoreRound with
        holdings := [{ portfolio := "Portfolio 1", asset := "EEUU",
                       date := exDate, quantity := 2800000 }] } : Store).holdings,
      x ∈ exStoreRound.holdings ∨ 0 < x.quantity) ∧
    (∀ a h, (a, h) ∈
        [("EEUU", ({ portfolio := "Portfolio 1", asset := "EEUU", date := exDate,
                     quantity := 2800000 } : PortfolioHolding))] →
      0 < h.quantity) :=
  claim_C10_positive_quantities.1 exStoreRound exPortfolio 1000000000 exDate
    { exStoreRound with
      holdings := [{ portfolio := "Portfolio 1", asset := "EEUU", date := exDate,
                     quantity := 2800000 }] }
    [("EEUU", { portfolio := "Portfolio 1", asset := "EEUU", date := exDate,
                quantity := 2800000 })]
    [] rfl rfl (by with_unfolding_all rfl)

/-- Claim C8: the ingestion date window [2022-02-15, 2023-02-16] is inclusive
at both ends: the two boundary dates are accepted and persisted, the two dates
just outside are skipped without touching the store and without raising. -/
theorem claim_C8_date_window_boundaries :
    price_date_in_range { year := 2022, month := 2, day := 15 } = true ∧
    price_date_in_range { year := 2023, month := 2, day := 16 } = true ∧
    price_date_in_range { year := 2022, month := 2, day := 14 } = false ∧
    price_date_in_range { year := 2023, month := 2, day := 17 } = false ∧
    load_price_cell emptyStore "EEUU" { year := 2022, month := 2, day := 15 } 100 =
      .ok ({ emptyStore with
              prices := [{ asset := "EEUU",
                           date := { year := 2022, month := 2, day := 15 },
                           price := 100 }] }, true) ∧
    load_price_cell emptyStore "EEUU" { year := 2023, month := 2, day := 16 } 100 =
      .ok ({ emptyStore with
              prices := [{ asset := "EEUU",
                           date := { year := 2023, month := 2, day := 16 },
                           price := 100 }] }, true) ∧
    load_price_cell emptyStore "EEUU" { year := 2022, month := 2, day := 14 } 100 =
      .ok (emptyStore, false) ∧
    load_price_cell emptyStore "EEUU" { year := 2023, month := 2, day := 17 } 100 =
      .ok (emptyStore, false) := by
  refine ⟨rfl, rfl, rfl, rfl, ?_, ?_, ?_, ?_⟩ <;> with_unfolding_all rfl

/-- Counterexample to C3 as stated: the four explicit deletes of
Command.handle with ON-DELETE cascade disabled leave the PortfolioHolding
(and Transaction) rows behind, so the code does not delete those entity types
explicitly and does rely on cascade for them. -/
theorem claim_C3_counterexample :
    ¬ ((clear_data_without_cascade exStoreClear).holdings = [] ∧
       (clear_data_without_cascade exStoreClear).transactions = []) := by
  intro hcontra
  have h1 : (clear_data_without_cascade exStoreClear).holdings =
      [{ portfolio := "Portfolio 1", asset := "EEUU", date := exDate,
         quantity := 2800000 }] := by
    with_unfolding_all rfl
  rw [h1] at hcontra
  cases hcontra.1

/-- Claim C3 (amended: the clear path explicitly bulk-deletes only Price,
PortfolioWeight, Portfolio and Asset, in that order; PortfolioHolding and
Transaction rows are removed by the ON-DELETE cascade of the Portfolio and
Asset deletions): for any store whose holdings and transactions reference
existing portfolios the result is exactly the empty store — the same final
state as the spec's six explicit dependency-ordered deletes. -/
theorem claim_C3_clear_semantics :
    ∀ (s : Store),
    (∀ h ∈ s.holdings, h.portfolio ∈ s.portfolios.map Portfolio.name) →
    (∀ t ∈ s.transactions, t.portfolio ∈ s.portfolios.map Portfolio.name) →
    clear_data s = emptyStore ∧ clear_data s = clear_data_spec s := by
  intro s hh ht
  have hhold : s.holdings.filter
      (fun h => decide (h.portfolio ∉ s.portfolios.map Portfolio.name)) = [] := by
    rw [List.filter_eq_nil_iff]
    intro h hmem
    simp [hh h hmem]
  have htxn : s.transactions.filter
      (fun t => decide (t.portfolio ∉ s.portfolios.map Portfolio.name)) = [] := by
    rw [List.filter_eq_nil_iff]
    intro t hmem
    simp [ht t hmem]
  have hmain : clear_data s = emptyStore := by
    unfold clear_data portfolios_delete_all assets_delete_all
    dsimp only
    rw [hhold, htxn]
    rfl
  exact ⟨hmain, hmain.trans rfl⟩

/-- Witness for C3 at a store holding one row of every entity type. -/
theorem claim_C3_clear_semantics_witness :
    clear_data exStoreClear = emptyStore ∧
    clear_data exStoreClear = clear_data_spec exStoreClear :=
  claim_C3_clear_semantics exStoreClear (by decide) (by decide)

/-- Counterexample to C4 as stated: a constraint-violating payload on the
create path raises IntegrityError (the database check constraint), not the
ValidationError of full_clean — get_or_create never runs full_clean when it
inserts. -/
theorem claim_C4_counterexample :
    errorOf (price_create emptyStore "EEUU" exDate 0) =
      some DbError.integrityError ∧
    some DbError.integrityError ≠ some DbError.validationError := by
  constructor
  · with_unfolding_all rfl
  · decide

/-- Claim C4 (amended: full_clean runs before the write only on the update
path; on the create path a violating payload is rejected by the store's own
check constraint as IntegrityError; in both cases the atomic transaction
leaves the store unchanged with no partial record). -/
theorem claim_C4_validation_paths :
    (∀ (s : Store) (a : String) (d : PDate) (p : ℚ),
      s.prices.find? (fun x => decide (x.asset = a ∧ x.date = d)) = none →
      ¬ 0 < p →
      errorOf (price_create s a d p) = some DbError.integrityError) ∧
    (∀ (s : Store) (a : String) (d : PDate) (p : ℚ) (pr : Price),
      s.prices.find? (fun x => decide (x.asset = a ∧ x.date = d)) = some pr →
      ¬ 0 < p →
      errorOf (price_create s a d p) = some DbError.validationError) ∧
    (∀ (s : Store) (a : String) (d : PDate) (p : ℚ) (e : DbError),
      price_create s a d p = .error e →
      atomicResult s (price_create s a d p) = s) ∧
    (∀ (s : Store) (pname a : String) (d : PDate) (q : ℚ),
      s.holdings.find?
        (fun x => decide (x.portfolio = pname ∧ x.asset = a ∧ x.date = d)) =
        none →
      ¬ 0 ≤ q →
      errorOf (portfolio_holding_create s pname a d q) =
        some DbError.integrityError) ∧
    (∀ (s : Store) (pname a : String) (d : PDate) (q : ℚ) (h0 : PortfolioHolding),
      s.holdings.find?
        (fun x => decide (x.portfolio = pname ∧ x.asset = a ∧ x.date = d)) =
        some h0 →
      ¬ 0 ≤ q →
      errorOf (portfolio_holding_create s pname a d q) =
        some DbError.validationError) ∧
    (∀ (s : Store) (pname a : String) (d : PDate) (q : ℚ) (e : DbError),
      portfolio_holding_create s pname a d q = .error e →
      atomicResult s (portfolio_holding_create s pname a d q) = s) := by
  refine ⟨?_, ?_, ?_, ?_, ?_, ?_⟩
  · intro s a d p hf hp
    unfold price_create
    rw [hf]
    dsimp only
    rw [if_neg (by simp [priceCheck, hp])]
    rfl
  · intro s a d p pr hf hp
    unfold price_create
    rw [hf]
    dsimp only
    rw [if_neg (by simp [priceCheck, hp])]
    rfl
  · intro s a d p e hc
    rw [hc]
    rfl
  · intro s pname a d q hf hq
    unfold portfolio_holding_create
    rw [hf]
    dsimp only
    rw [if_neg (by simp [holdingCheck, hq])]
    rfl
  · intro s pname a d q h0 hf hq
    unfold portfolio_holding_create
    rw [hf]
    dsimp only
    rw [if_neg (by simp [holdingCheck, hq])]
    rfl
  · intro s pname a d q e hc
    rw [hc]
    rfl

/-- Witness for C4: a zero price on a fresh key is rejected as a database
integrity error. -/
theorem claim_C4_validation_paths_witness :
    errorOf (price_create emptyStore "EEUU" exDate 0) =
      some DbError.integrityError :=
  claim_C4_validation_paths.1 emptyStore "EEUU" exDate 0 rfl (by simp)

/-- Counterexample to C5 as stated: asset_create on an existing asset with a
falsy (None) symbol argument keeps the stored symbol instead of overwriting
it with the supplied payload. -/
theorem claim_C5_counterexample :
    asset_create exStoreSymbol "EEUU" none =
      .ok (exStoreSymbol, { name := "EEUU", symbol := some "OLD" }) ∧
    ({ name := "EEUU", symbol := some "OLD" } : Asset).symbol ≠ none := by
  constructor
  · with_unfolding_all rfl
  · decide

/-- Claim C5 (amended: every upsert overwrites the mutable fields of an
existing record with the payload and re-validates — except asset_create,
which overwrites the symbol only when the supplied symbol is truthy and
leaves the record completely untouched when it is falsy). -/
theorem claim_C5_update_overwrites :
    (∀ (s : Store) (a : String) (d : PDate) (p : ℚ) (pr0 : Price)
        (s' : Store) (pr2 : Price),
      s.prices.find? (fun x => decide (x.asset = a ∧ x.date = d)) = some pr0 →
      price_create s a d p = .ok (s', pr2) →
      pr2.price = p ∧
      s'.prices.find? (fun x => decide (x.asset = a ∧ x.date = d)) = some pr2) ∧
    (∀ (s : Store) (pname a : String) (v : ℚ) (w0 : PortfolioWeight)
        (s' : Store) (w2 : PortfolioWeight),
      s.weights.find?
        (fun x => decide (x.portfolio = pname ∧ x.asset = a)) = some w0 →
      portfolio_weight_create s pname a v = .ok (s', w2) →
      w2.initial_weight = v ∧
      s'.weights.find?
        (fun x => decide (x.portfolio = pname ∧ x.asset = a)) = some w2) ∧
    (∀ (s : Store) (pname a : String) (d : PDate) (q : ℚ)
        (h0 : PortfolioHolding) (s' : Store) (h2 : PortfolioHolding),
      s.holdings.find?
        (fun x => decide (x.portfolio = pname ∧ x.asset = a ∧ x.date = d)) =
        some h0 →
      portfolio_holding_create s pname a d q = .ok (s', h2) →
      h2.quantity = q ∧
      s'.holdings.find?
        (fun x => decide (x.portfolio = pname ∧ x.asset = a ∧ x.date = d)) =
        some h2) ∧
    (∀ (s : Store) (n : String) (v : ℚ) (d : PDate) (p0 : Portfolio)
        (s' : Store) (p2 : Portfolio),
      s.portfolios.find? (fun x => decide (x.name = n)) = some p0 →
      portfolio_create s n v d = .ok (s', p2) →
      p2.initial_value = some v ∧ p2.initial_date = some d ∧
      s'.portfolios.find? (fun x => decide (x.name = n)) = some p2) ∧
    (∀ (s : Store) (n : String) (sym : Option String) (a0 : Asset)
        (s' : Store) (a2 : Asset),
      pyTruthyStr sym = true →
      s.assets.find? (fun x => decide (x.name = n)) = some a0 →
      asset_create s n sym = .ok (s', a2) →
      a2.symbol = sym ∧
      s'.assets.find? (fun x => decide (x.name = n)) = some a2) ∧
    (∀ (s : Store) (n : String) (sym : Option String) (a0 : Asset),
      pyTruthyStr sym = false →
      s.assets.find? (fun x => decide (x.name = n)) = some a0 →
      asset_create s n sym = .ok (s, a0)) := by
  refine ⟨?_, ?_, ?_, ?_, ?_, ?_⟩
  · intro s a d p pr0 s' pr2 hf hc
    unfold price_create at hc
    rw [hf] at hc
    dsimp only at hc
    split at hc
    · simp only [Except.ok.injEq, Prod.mk.injEq] at hc
      obtain ⟨hs, hh⟩ := hc
      subst hs; subst hh
      refine ⟨rfl, ?_⟩
      dsimp only
      have hres := find?_updateFirst
        (p := fun x : Price => decide (x.asset = a ∧ x.date = d))
        (f := fun x : Price => { x with price := p }) (fun x => rfl) s.prices
      rw [hres, hf]
      rfl
    · cases hc
  · intro s pname a v w0 s' w2 hf hc
    unfold portfolio_weight_create at hc
    rw [hf] at hc
    dsimp only at hc
    split at hc
    · simp only [Except.ok.injEq, Prod.mk.injEq] at hc
      obtain ⟨hs, hh⟩ := hc
      subst hs; subst hh
      refine ⟨rfl, ?_⟩
      dsimp only
      have hres := find?_updateFirst
        (p := fun x : PortfolioWeight => decide (x.portfolio = pname ∧ x.asset = a))
        (f := fun x : PortfolioWeight => { x with initial_weight := v })
        (fun x => rfl) s.weights
      rw [hres, hf]
      rfl
    · cases hc
  · intro s pname a d q h0 s' h2 hf hc
    unfold portfolio_holding_create at hc
    rw [hf] at hc
    dsimp only at hc
    split at hc
    · simp only [Except.ok.injEq, Prod.mk.injEq] at hc
      obtain ⟨hs, hh⟩ := hc
      subst hs; subst hh
      refine ⟨rfl, ?_⟩
      dsimp only
      have hres := find?_updateFirst
        (p := fun x : PortfolioHolding =>
          decide (x.portfolio = pname ∧ x.asset = a ∧ x.date = d))
        (f := fun x : PortfolioHolding => { x with quantity := q })
        (fun x => rfl) s.holdings
      rw [hres, hf]
      rfl
    · cases hc
  · intro s n v d p0 s' p2 hf hc
    unfold portfolio_create at hc
    rw [hf] at hc
    dsimp only at hc
    split at hc
    · simp only [Except.ok.injEq, Prod.mk.injEq] at hc
      obtain ⟨hs, hh⟩ := hc
      subst hs; subst hh
      refine ⟨rfl, rfl, ?_⟩
      dsimp only
      have hres := find?_updateFirst
        (p := fun x : Portfolio => decide (x.name = n))
        (f := fun x : Portfolio =>
          { x with initial_value := some v, initial_date := some d })
        (fun x => rfl) s.portfolios
      rw [hres, hf]
      rfl
    · cases hc
  · intro s n sym a0 s' a2 htru hf hc
    unfold asset_create at hc
    rw [hf] at hc
    dsimp only at hc
    rw [if_pos htru] at hc
    split at hc
    · simp only [Except.ok.injEq, Prod.mk.injEq] at hc
      obtain ⟨hs, hh⟩ := hc
      subst hs; subst hh
      refine ⟨rfl, ?_⟩
      dsimp only
      have hres := find?_updateFirst
        (p := fun x : Asset => decide (x.name = n))
        (f := fun x : Asset => { x with symbol := sym }) (fun x => rfl) s.assets
      rw [hres, hf]
      rfl
    · cases hc
  · intro s n sym a0 hfalsy hf
    unfold asset_create
    rw [hf]
    dsimp only
    rw [if_neg (by simp [hfalsy])]

/-- Witness for C5: the falsy-symbol branch on an existing asset returns the
unchanged store and record. -/
theorem claim_C5_update_overwrites_witness :
    asset_create exStoreSymbol "EEUU" none =
      .ok (exStoreSymbol, { name := "EEUU", symbol := some "OLD" }) :=
  claim_C5_update_overwrites.2.2.2.2.2 exStoreSymbol "EEUU" none
    { name := "EEUU", symbol := some "OLD" } rfl rfl

/-! Idempotence of the upsert services (for the ingestion re-run claim). -/

theorem price_create_bad_unchanged (t : Store) (a : String) (d : PDate) (p : ℚ)
    (hp : ¬ 0 < p) : atomicResult t (price_create t a d p) = t := by
  unfold price_create
  cases hf : t.prices.find? (fun x => decide (x.asset = a ∧ x.date = d)) with
  | none =>
    dsimp only
    rw [if_neg (by simp [priceCheck, hp])]
    rfl
  | some pr =>
    dsimp only
    rw [if_neg (by simp [priceCheck, hp])]
    rfl

theorem price_create_twice (s : Store) (a : String) (d : PDate) (p : ℚ) :
    atomicResult (atomicResult s (price_create s a d p))
      (price_create (atomicResult s (price_create s a d p)) a d p) =
    atomicResult s (price_create s a d p) := by
  by_cases hp : 0 < p
  · cases hf : s.prices.find? (fun x => decide (x.asset = a ∧ x.date = d)) with
    | none =>
      have hnone : ∀ y ∈ s.prices,
          (fun x : Price => decide (x.asset = a ∧ x.date = d)) y = false := by
        intro y hy
        have h2 := List.find?_eq_none.mp hf y hy
        simpa using h2
      have h1 : atomicResult s (price_create s a d p) =
          { s with prices :=
              s.prices ++ [{ asset := a, date := d, price := p }] } := by
        unfold price_create
        rw [hf]
        dsimp only
        rw [if_pos (by simp [priceCheck, hp])]
        rfl
      rw [h1]
      unfold price_create
      dsimp only
      rw [find?_append_singleton hnone
        { asset := a, date := d, price := p } (by simp)]
      dsimp only
      rw [if_pos (by simp [priceCheck, hp])]
      dsimp only [atomicResult]
      rw [updateFirst_append_singleton hnone
        { asset := a, date := d, price := p } (by simp)]
    | some pr0 =>
      have h1 : atomicResult s (price_create s a d p) =
          { s with prices :=
              (updateFirst (fun x : Price => decide (x.asset = a ∧ x.date = d))
                (fun x : Price => { x with price := p }) s.prices) } := by
        unfold price_create
        rw [hf]
        dsimp only
        rw [if_pos (by simp [priceCheck, hp])]
        rfl
      rw [h1]
      unfold price_create
      dsimp only
      have hres := find?_updateFirst
        (p := fun x : Price => decide (x.asset = a ∧ x.date = d))
        (f := fun x : Price => { x with price := p }) (fun x => rfl) s.prices
      rw [hres, hf]
      dsimp only [Option.map]
      rw [if_pos (by simp [priceCheck, hp])]
      dsimp only [atomicResult]
      rw [updateFirst_updateFirst
        (p := fun x : Price => decide (x.asset = a ∧ x.date = d))
        (f := fun x : Price => { x with price := p })
        (fun x => rfl) (fun x => rfl) s.prices]
  · rw [price_create_bad_unchanged s a d p hp,
      price_create_bad_unchanged s a d p hp]

theorem price_create_keyexists_length (s : Store) (a : String) (d : PDate)
    (p : ℚ)
    (hex : (s.prices.find?
      (fun x => decide (x.asset = a ∧ x.date = d))).isSome = true) :
    (atomicResult s (price_create s a d p)).prices.length =
      s.prices.length := by
  unfold price_create
  cases hf : s.prices.find? (fun x => decide (x.asset = a ∧ x.date = d)) with
  | none =>
    rw [hf] at hex
    cases hex
  | some pr0 =>
    dsimp only
    by_cases hchk :
        priceCheck { asset := pr0.asset, date := pr0.date, price := p } = true
    · rw [if_pos hchk]
      dsimp only [atomicResult]
      exact updateFirst_length _ _ _
    · rw [if_neg hchk]
      rfl

theorem weight_create_bad_unchanged (t : Store) (pname a : String) (v : ℚ)
    (hv : ¬ (0 ≤ v ∧ v ≤ 1)) :
    atomicResult t (portfolio_weight_create t pname a v) = t := by
  unfold portfolio_weight_create
  cases hf : t.weights.find?
      (fun x => decide (x.portfolio = pname ∧ x.asset = a)) with
  | none =>
    dsimp only
    rw [if_neg (by simp [weightCheck, hv])]
    rfl
  | some w0 =>
    dsimp only
    rw [if_neg (by simp [weightCheck, hv])]
    rfl

theorem weight_create_twice (s : Store) (pname a : String) (v : ℚ) :
    atomicResult (atomicResult s (portfolio_weight_create s pname a v))
      (portfolio_weight_create
        (atomicResult s (portfolio_weight_create s pname a v)) pname a v) =
    atomicResult s (portfolio_weight_create s pname a v) := by
  by_cases hv : 0 ≤ v ∧ v ≤ 1
  · cases hf : s.weights.find?
        (fun x => decide (x.portfolio = pname ∧ x.asset = a)) with
    | none =>
      have hnone : ∀ y ∈ s.weights,
          (fun x : PortfolioWeight =>
            decide (x.portfolio = pname ∧ x.asset = a)) y = false := by
        intro y hy
        have h2 := List.find?_eq_none.mp hf y hy
        simpa using h2
      have h1 : atomicResult s (portfolio_weight_create s pname a v) =
          { s with weights := s.weights ++
              [{ portfolio := pname, asset := a, initial_weight := v }] } := by
        unfold portfolio_weight_create
        rw [hf]
        dsimp only
        rw [if_pos (by simp [weightCheck, hv])]
        rfl
      rw [h1]
      unfold portfolio_weight_create
      dsimp only
      rw [find?_append_singleton hnone
        { portfolio := pname, asset := a, initial_weight := v } (by simp)]
      dsimp only
      rw [if_pos (by simp [weightCheck, hv])]
      dsimp only [atomicResult]
      rw [updateFirst_append_singleton hnone
        { portfolio := pname, asset := a, initial_weight := v } (by simp)]
    | some w0 =>
      have h1 : atomicResult s (portfolio_weight_create s pname a v) =
          { s with weights :=
              (updateFirst
                (fun x : PortfolioWeight =>
                  decide (x.portfolio = pname ∧ x.asset = a))
                (fun x : PortfolioWeight => { x with initial_weight := v })
                s.weights) } := by
        unfold portfolio_weight_create
        rw [hf]
        dsimp only
        rw [if_pos (by simp [weightCheck, hv])]
        rfl
      rw [h1]
      unfold portfolio_weight_create
      dsimp only
      have hres := find?_updateFirst
        (p := fun x : PortfolioWeight =>
          decide (x.portfolio = pname ∧ x.asset = a))
        (f := fun x : PortfolioWeight => { x with initial_weight := v })
        (fun x => rfl) s.weights
      rw [hres, hf]
      dsimp only [Option.map]
      rw [if_pos (by simp [weightCheck, hv])]
      dsimp only [atomicResult]
      rw [updateFirst_updateFirst
        (p := fun x : PortfolioWeight =>
          decide (x.portfolio = pname ∧ x.asset = a))
        (f := fun x : PortfolioWeight => { x with initial_weight := v })
        (fun x => rfl) (fun x => rfl) s.weights]
  · rw [weight_create_bad_unchanged s pname a v hv,
      weight_create_bad_unchanged s pname a v hv]

theorem weight_create_keyexists_length (s : Store) (pname a : String) (v : ℚ)
    (hex : (s.weights.find?
      (fun x => decide (x.portfolio = pname ∧ x.asset = a))).isSome = true) :
    (atomicResult s (portfolio_weight_create s pname a v)).weights.length =
      s.weights.length := by
  unfold portfolio_weight_create
  cases hf : s.weights.find?
      (fun x => decide (x.portfolio = pname ∧ x.asset = a)) with
  | none =>
    rw [hf] at hex
    cases hex
  | some w0 =>
    dsimp only
    by_cases hchk : weightCheck
        { portfolio := w0.portfolio, asset := w0.asset,
          initial_weight := v } = true
    · rw [if_pos hchk]
      dsimp only [atomicResult]
      exact updateFirst_length _ _ _
    · rw [if_neg hchk]
      rfl

theorem holding_create_bad_unchanged (t : Store) (pname a : String)
    (d : PDate) (q : ℚ) (hq : ¬ 0 ≤ q) :
    atomicResult t (portfolio_holding_create t pname a d q) = t := by
  unfold portfolio_holding_create
  cases hf : t.holdings.find?
      (fun x => decide (x.portfolio = pname ∧ x.asset = a ∧ x.date = d)) with
  | none =>
    dsimp only
    rw [if_neg (by simp [holdingCheck, hq])]
    rfl
  | some h0 =>
    dsimp only
    rw [if_neg (by simp [holdingCheck, hq])]
    rfl

theorem holding_create_twice (s : Store) (pname a : String) (d : PDate)
    (q : ℚ) :
    atomicResult (atomicResult s (portfolio_holding_create s pname a d q))
      (portfolio_holding_create
        (atomicResult s (portfolio_holding_create s pname a d q)) pname a d q) =
    atomicResult s (portfolio_holding_create s pname a d q) := by
  by_cases hq : 0 ≤ q
  · cases hf : s.holdings.find?
        (fun x => decide (x.portfolio = pname ∧ x.asset = a ∧ x.date = d)) with
    | none =>
      have hnone : ∀ y ∈ s.holdings,
          (fun x : PortfolioHolding =>
            decide (x.portfolio = pname ∧ x.asset = a ∧ x.date = d)) y =
            false := by
        intro y hy
        have h2 := List.find?_eq_none.mp hf y hy
        simpa using h2
      have h1 : atomicResult s (portfolio_holding_create s pname a d q) =
          { s with holdings := s.holdings ++
              [{ portfolio := pname, asset := a, date := d,
                 quantity := q }] } := by
        unfold portfolio_holding_create
        rw [hf]
        dsimp only
        rw [if_pos (by simp [holdingCheck, hq])]
        rfl
      rw [h1]
      unfold portfolio_holding_create
      dsimp only
      rw [find?_append_singleton hnone
        { portfolio := pname, asset := a, date := d, quantity := q } (by simp)]
      dsimp only
      rw [if_pos (by simp [holdingCheck, hq])]
      dsimp only [atomicResult]
      rw [updateFirst_append_singleton hnone
        { portfolio := pname, asset := a, date := d, quantity := q } (by simp)]
    | some h0 =>
      have h1 : atomicResult s (portfolio_holding_create s pname a d q) =
          { s with holdings :=
              (updateFirst
                (fun x : PortfolioHolding =>
                  decide (x.portfolio = pname ∧ x.asset = a ∧ x.date = d))
                (fun x : PortfolioHolding => { x with quantity := q })
                s.holdings) } := by
        unfold portfolio_holding_create
        rw [hf]
        dsimp only
        rw [if_pos (by simp [holdingCheck, hq])]
        rfl
      rw [h1]
      unfold portfolio_holding_create
      dsimp only
      have hres := find?_updateFirst
        (p := fun x : PortfolioHolding =>
          decide (x.portfolio = pname ∧ x.asset = a ∧ x.date = d))
        (f := fun x : PortfolioHolding => { x with quantity := q })
        (fun x => rfl) s.holdings
      rw [hres, hf]
      dsimp only [Option.map]
      rw [if_pos (by simp [holdingCheck, hq])]
      dsimp only [atomicResult]
      rw [updateFirst_updateFirst
        (p := fun x : PortfolioHolding =>
          decide (x.portfolio = pname ∧ x.asset = a ∧ x.date = d))
        (f := fun x : PortfolioHolding => { x with quantity := q })
        (fun x => rfl) (fun x => rfl) s.holdings]
  · rw [holding_create_bad_unchanged s pname a d q hq,
      holding_create_bad_unchanged s pname a d q hq]

theorem holding_create_keyexists_length (s : Store) (pname a : String)
    (d : PDate) (q : ℚ)
    (hex : (s.holdings.find?
      (fun x => decide (x.portfolio = pname ∧ x.asset = a ∧ x.date = d))).isSome =
      true) :
    (atomicResult s (portfolio_holding_create s pname a d q)).holdings.length =
      s.holdings.length := by
  unfold portfolio_holding_create
  cases hf : s.holdings.find?
      (fun x => decide (x.portfolio = pname ∧ x.asset = a ∧ x.date = d)) with
  | none =>
    rw [hf] at hex
    cases hex
  | some h0 =>
    dsimp only
    by_cases hchk : holdingCheck
        { portfolio := h0.portfolio, asset := h0.asset, date := h0.date,
          quantity := q } = true
    · rw [if_pos hchk]
      dsimp only [atomicResult]
      exact updateFirst_length _ _ _
    · rw [if_neg hchk]
      rfl

theorem portfolio_create_twice (s : Store) (n : String) (v : ℚ) (dt : PDate) :
    atomicResult (atomicResult s (portfolio_create s n v dt))
      (portfolio_create (atomicResult s (portfolio_create s n v dt)) n v dt) =
    atomicResult s (portfolio_create s n v dt) := by
  cases hf : s.portfolios.find? (fun x => decide (x.name = n)) with
  | none =>
    have hnone : ∀ y ∈ s.portfolios,
        (fun x : Portfolio => decide (x.name = n)) y = false := by
      intro y hy
      have h2 := List.find?_eq_none.mp hf y hy
      simpa using h2
    have h1 : atomicResult s (portfolio_create s n v dt) =
        { s with portfolios := s.portfolios ++
            [{ name := n, initial_value := some v,
               initial_date := some dt }] } := by
      unfold portfolio_create
      rw [hf]
      rfl
    rw [h1]
    unfold portfolio_create
    dsimp only
    rw [find?_append_singleton hnone
      { name := n, initial_value := some v, initial_date := some dt } (by simp)]
    dsimp only
    rw [if_pos (by simp [portfolioClean])]
    dsimp only [atomicResult]
    rw [updateFirst_append_singleton hnone
      { name := n, initial_value := some v, initial_date := some dt } (by simp)]
  | some p0 =>
    have h1 : atomicResult s (portfolio_create s n v dt) =
        { s with portfolios :=
            (updateFirst (fun x : Portfolio => decide (x.name = n))
              (fun x : Portfolio =>
                { x with initial_value := some v, initial_date := some dt })
              s.portfolios) } := by
      unfold portfolio_create
      rw [hf]
      dsimp only
      rw [if_pos (by simp [portfolioClean])]
      rfl
    rw [h1]
    unfold portfolio_create
    dsimp only
    have hres := find?_updateFirst
      (p := fun x : Portfolio => decide (x.name = n))
      (f := fun x : Portfolio =>
        { x with initial_value := some v, initial_date := some dt })
      (fun x => rfl) s.portfolios
    rw [hres, hf]
    dsimp only [Option.map]
    rw [if_pos (by simp [portfolioClean])]
    dsimp only [atomicResult]
    rw [updateFirst_updateFirst
      (p := fun x : Portfolio => decide (x.name = n))
      (f := fun x : Portfolio =>
        { x with initial_value := some v, initial_date := some dt })
      (fun x => rfl) (fun x => rfl) s.portfolios]

theorem portfolio_create_keyexists_length (s : Store) (n : String) (v : ℚ)
    (dt : PDate)
    (hex : (s.portfolios.find? (fun x => decide (x.name = n))).isSome = true) :
    (atomicResult s (portfolio_create s n v dt)).portfolios.length =
      s.portfolios.length := by
  unfold portfolio_create
  cases hf : s.portfolios.find? (fun x => decide (x.name = n)) with
  | none =>
    rw [hf] at hex
    cases hex
  | some p0 =>
    dsimp only
    rw [if_pos (by simp [portfolioClean])]
    dsimp only [atomicResult]
    exact updateFirst_length _ _ _

theorem asset_create_twice (s : Store) (n : String) (sym : Option String) :
    atomicResult (atomicResult s (asset_create s n sym))
      (asset_create (atomicResult s (asset_create s n sym)) n sym) =
    atomicResult s (asset_create s n sym) := by
  cases hf : s.assets.find? (fun x => decide (x.name = n)) with
  | none =>
    have hnone : ∀ y ∈ s.assets,
        (fun x : Asset => decide (x.name = n)) y = false := by
      intro y hy
      have h2 := List.find?_eq_none.mp hf y hy
      simpa using h2
    have h1 : atomicResult s (asset_create s n sym) =
        { s with assets := s.assets ++ [{ name := n, symbol := sym }] } := by
      unfold asset_create
      rw [hf]
      rfl
    rw [h1]
    unfold asset_create
    dsimp only
    rw [find?_append_singleton hnone { name := n, symbol := sym } (by simp)]
    dsimp only
    by_cases htru : pyTruthyStr sym = true
    · rw [if_pos htru]
      by_cases hcl : assetClean { name := n, symbol := sym } = true
      · rw [if_pos hcl]
        dsimp only [atomicResult]
        rw [updateFirst_append_singleton hnone
          { name := n, symbol := sym } (by simp)]
      · rw [if_neg hcl]
        rfl
    · rw [if_neg htru]
      rfl
  | some a0 =>
    by_cases htru : pyTruthyStr sym = true
    · by_cases hcl : assetClean { name := a0.name, symbol := sym } = true
      · have h1 : atomicResult s (asset_create s n sym) =
            { s with assets :=
                (updateFirst (fun x : Asset => decide (x.name = n))
                  (fun x : Asset => { x with symbol := sym }) s.assets) } := by
          unfold asset_create
          rw [hf]
          dsimp only
          rw [if_pos htru, if_pos hcl]
          rfl
        rw [h1]
        unfold asset_create
        dsimp only
        have hres := find?_updateFirst
          (p := fun x : Asset => decide (x.name = n))
          (f := fun x : Asset => { x with symbol := sym })
          (fun x => rfl) s.assets
        rw [hres, hf]
        dsimp only [Option.map]
        rw [if_pos htru, if_pos hcl]
        dsimp only [atomicResult]
        rw [updateFirst_updateFirst
          (p := fun x : Asset => decide (x.name = n))
          (f := fun x : Asset => { x with symbol := sym })
          (fun x => rfl) (fun x => rfl) s.assets]
      · have h1 : atomicResult s (asset_create s n sym) = s := by
          unfold asset_create
          rw [hf]
          dsimp only
          rw [if_pos htru, if_neg hcl]
          rfl
        rw [h1]
        unfold asset_create
        rw [hf]
        dsimp only
        rw [if_pos htru, if_neg hcl]
        rfl
    · have h1 : atomicResult s (asset_create s n sym) = s := by
        unfold asset_create
        rw [hf]
        dsimp only
        rw [if_neg htru]
        rfl
      rw [h1]
      unfold asset_create
      rw [hf]
      dsimp only
      rw [if_neg htru]
      rfl

theorem asset_create_keyexists_length (s : Store) (n : String)
    (sym : Option String)
    (hex : (s.assets.find? (fun x => decide (x.name = n))).isSome = true) :
    (atomicResult s (asset_create s n sym)).assets.length =
      s.assets.length := by
  unfold asset_create
  cases hf : s.assets.find? (fun x => decide (x.name = n)) with
  | none =>
    rw [hf] at hex
    cases hex
  | some a0 =>
    dsimp only
    by_cases htru : pyTruthyStr sym = true
    · rw [if_pos htru]
      by_cases hcl : assetClean { name := a0.name, symbol := sym } = true
      · rw [if_pos hcl]
        dsimp only [atomicResult]
        exact updateFirst_length _ _ _
      · rw [if_neg hcl]
        rfl
    · rw [if_neg htru]
      rfl

/-- Claim C2: running every upsert twice with the same arguments produces the
same store as running it once, and an upsert whose natural key already exists
never adds a record — so a second identical ingestion run is pure updates,
with identical entity counts and field values and no duplicates. -/
theorem claim_C2_idempotent_upserts :
    (∀ (s : Store) (n : String) (sym : Option String),
      atomicResult (atomicResult s (asset_create s n sym))
        (asset_create (atomicResult s (asset_create s n sym)) n sym) =
      atomicResult s (asset_create s n sym)) ∧
    (∀ (s : Store) (n : String) (v : ℚ) (dt : PDate),
      atomicResult (atomicResult s (portfolio_create s n v dt))
        (portfolio_create (atomicResult s (portfolio_create s n v dt)) n v dt) =
      atomicResult s (portfolio_create s n v dt)) ∧
    (∀ (s : Store) (a : String) (d : PDate) (p : ℚ),
      atomicResult (atomicResult s (price_create s a d p))
        (price_create (atomicResult s (price_create s a d p)) a d p) =
      atomicResult s (price_create s a d p)) ∧
    (∀ (s : Store) (pname a : String) (v : ℚ),
      atomicResult (atomicResult s (portfolio_weight_create s pname a v))
        (portfolio_weight_create
          (atomicResult s (portfolio_weight_create s pname a v)) pname a v) =
      atomicResult s (portfolio_weight_create s pname a v)) ∧
    (∀ (s : Store) (pname a : String) (d : PDate) (q : ℚ),
      atomicResult (atomicResult s (portfolio_holding_create s pname a d q))
        (portfolio_holding_create
          (atomicResult s (portfolio_holding_create s pname a d q))
          pname a d q) =
      atomicResult s (portfolio_holding_create s pname a d q)) ∧
    (∀ (s : Store) (n : String) (sym : Option String),
      (s.assets.find? (fun x => decide (x.name = n))).isSome = true →
      (atomicResult s (asset_create s n sym)).assets.length =
        s.assets.length) ∧
    (∀ (s : Store) (n : String) (v : ℚ) (dt : PDate),
      (s.portfolios.find? (fun x => decide (x.name = n))).isSome = true →
      (atomicResult s (portfolio_create s n v dt)).portfolios.length =
        s.portfolios.length) ∧
    (∀ (s : Store) (a : String) (d : PDate) (p : ℚ),
      (s.prices.find?
        (fun x => decide (x.asset = a ∧ x.date = d))).isSome = true →
      (atomicResult s (price_create s a d p)).prices.length =
        s.prices.length) ∧
    (∀ (s : Store) (pname a : String) (v : ℚ),
      (s.weights.find?
        (fun x => decide (x.portfolio = pname ∧ x.asset = a))).isSome = true →
      (atomicResult s (portfolio_weight_create s pname a v)).weights.length =
        s.weights.length) ∧
    (∀ (s : Store) (pname a : String) (d : PDate) (q : ℚ),
      (s.holdings.find?
        (fun x =>
          decide (x.portfolio = pname ∧ x.asset = a ∧ x.date = d))).isSome =
        true →
      (atomicResult s (portfolio_holding_create s pname a d q)).holdings.length =
        s.holdings.length) :=
  ⟨asset_create_twice, portfolio_create_twice, price_create_twice,
    weight_create_twice, holding_create_twice, asset_create_keyexists_length,
    portfolio_create_keyexists_length, price_create_keyexists_length,
    weight_create_keyexists_length, holding_create_keyexists_length⟩

/-- Witness for C2: re-ingesting a price for an existing (asset, date) key
does not change the price-row count. -/
theorem claim_C2_idempotent_upserts_witness :
    ((exStoreRound.prices.find?
        (fun x => decide (x.asset = "EEUU" ∧ x.date = exDate))).isSome =
      true) ∧
    (atomicResult exStoreRound
        (price_create exStoreRound "EEUU" exDate 50)).prices.length =
      exStoreRound.prices.length :=
  ⟨rfl, claim_C2_idempotent_upserts.2.2.2.2.2.2.2.1 exStoreRound "EEUU"
    exDate 50 rfl⟩

end PF
